import Mathlib

/-!
Verification of the decomp2dbg GDB client
(`src/decomp2dbg/clients/gdb/gdb_client.py`) against its specification.

The Python code is shallowly embedded: Python `int`s become `Int`
(unbounded), Python strings become `List Char` (with `String` wrappers for
readable statements), Python dicts that are iterated in insertion order
become association lists, exceptions become `Except`/`Option`, and the
external collaborators (the GDB evaluator, the symbol mapper, the
transport) become explicit oracle parameters.
-/

namespace D2D

/-! ## Python string primitives -/

/-- Python `pat in s` / `str.find` prerequisite: substring occurrence test
is derived from `pyFind` below.  `List.isPrefixOf` matches Python's
prefix-at-position semantics. -/
def pyFind (s pat : List Char) : Option Nat :=
  match s with
  | [] => if pat.isPrefixOf ([] : List Char) then some 0 else none
  | _ :: rest =>
    if pat.isPrefixOf s then some 0
    else (pyFind rest pat).map (· + 1)

/-- Python `pat in s` (substring containment). -/
def pyContains (s pat : List Char) : Bool :=
  (pyFind s pat).isSome

/-- Recursion core of `pyReplace`; the fuel only bounds the recursion
depth (one unit is spent per emitted character or replaced occurrence) so
that the definition is structural and computable by `decide`.  With
`fuel ≥ s.length` the fuel never runs out. -/
def pyReplaceGo (pat rep : List Char) : Nat → List Char → List Char
  | _, [] => []
  | 0, s => s
  | fuel + 1, c :: rest =>
    if pat ≠ [] ∧ pat.isPrefixOf (c :: rest) then
      rep ++ pyReplaceGo pat rep fuel ((c :: rest).drop pat.length)
    else
      c :: pyReplaceGo pat rep fuel rest

/-- Python `s.replace(pat, rep)`: replace non-overlapping occurrences of
`pat` left to right.  The source only calls this with the non-empty
patterns `"__"` and `"unsigned "`; for an empty `pat` this model returns
`s` unchanged. -/
def pyReplace (s pat rep : List Char) : List Char :=
  pyReplaceGo pat rep s.length s

/-- Digit value for bases up to 16 (Python `int` digit handling). -/
def digitVal (c : Char) : Option Nat :=
  if '0' ≤ c ∧ c ≤ '9' then some (c.toNat - '0'.toNat)
  else if 'a' ≤ c ∧ c ≤ 'f' then some (c.toNat - 'a'.toNat + 10)
  else if 'A' ≤ c ∧ c ≤ 'F' then some (c.toNat - 'A'.toNat + 10)
  else none

/-- Parse a non-empty string of digits in the given base. -/
def parseDigits (base : Nat) : List Char → Option Nat
  | [] => none
  | cs => cs.foldl (fun acc c =>
      match acc, digitVal c with
      | some n, some d => if d < base then some (n * base + d) else none
      | _, _ => none) (some 0)

/-- Python `int(s, 0)`: optional sign, then a base prefix `0x`/`0X`,
`0o`/`0O`, `0b`/`0B` or plain decimal; a decimal literal may not have a
leading zero unless it is all zeros.  Whitespace trimming and digit-group
underscores of CPython are not modelled (the source never relies on
them). `none` models `ValueError`. -/
def pyIntBase0 (s : List Char) : Option Int :=
  let signed : Int × List Char :=
    match s with
    | '-' :: r => (-1, r)
    | '+' :: r => (1, r)
    | r => (1, r)
  let sign := signed.1
  let rest := signed.2
  match rest with
  | '0' :: c :: r =>
    if c = 'x' ∨ c = 'X' then (parseDigits 16 r).map (fun n => sign * n)
    else if c = 'o' ∨ c = 'O' then (parseDigits 8 r).map (fun n => sign * n)
    else if c = 'b' ∨ c = 'B' then (parseDigits 2 r).map (fun n => sign * n)
    else if (c :: r).all (· = '0') then some 0
    else none
  | _ => (parseDigits 10 rest).map (fun n => sign * n)

/-- Python `int(s)` (base 10): optional sign then decimal digits; leading
zeros are allowed in base 10. -/
def pyIntBase10 (s : List Char) : Option Int :=
  match s with
  | '-' :: r => (parseDigits 10 r).map (fun n => (-1 : Int) * n)
  | '+' :: r => (parseDigits 10 r).map (fun n => (n : Int))
  | r => (parseDigits 10 r).map (fun n => (n : Int))

/-! ## Address Translator (`GDBDecompilerClient.rebase_addr`)

The `is_pie` flag and `text_base_addr` are resolved once per session and
cached; they are passed here as explicit parameters. -/

/-- Model of `GDBDecompilerClient.rebase_addr(addr, up)`: identity when the target
is not PIE; otherwise add the text base when `up` (to runtime), subtract
it otherwise (to static). -/
def rebase_addr (is_pie : Bool) (text_base_addr : Int) (addr : Int)
    (up : Bool) : Int :=
  let corrected_addr := addr
  if is_pie then
    if up then corrected_addr + text_base_addr
    else corrected_addr - text_base_addr
  else corrected_addr

/-! ## Type Normalizer (`GDBDecompilerClient._clean_type_str`) -/

/-- Model of `GDBDecompilerClient._clean_type_str`: if the string contains `"__"`,
remove every occurrence and insert `"_t"` before the first `"["` (or
append it when there is none); then replace every `"unsigned "` with
`"u"`. -/
def clean_type_str (type_str0 : List Char) : List Char :=
  let type_str :=
    if pyContains type_str0 ['_', '_'] then
      let stripped := pyReplace type_str0 ['_', '_'] []
      match pyFind stripped ['['] with
      | some idx => stripped.take idx ++ ['_', 't'] ++ stripped.drop idx
      | none => stripped ++ ['_', 't']
    else type_str0
  pyReplace type_str ['u', 'n', 's', 'i', 'g', 'n', 'e', 'd', ' ']
    ['u']

/-- String-level wrapper of `clean_type_str` for readable statements. -/
def cleanTypeStr (s : String) : String :=
  String.mk (clean_type_str s.data)

/-- First stage as described by the spec: strip every `"__"` and, only
when one was present, suffix `"_t"` (before the first `"["`, or at the
end). -/
def underscoreStage (s : List Char) : List Char :=
  if pyContains s ['_', '_'] then
    let stripped := pyReplace s ['_', '_'] []
    match pyFind stripped ['['] with
    | some idx => stripped.take idx ++ ['_', 't'] ++ stripped.drop idx
    | none => stripped ++ ['_', 't']
  else s

/-- Second stage as described by the spec: replace every `"unsigned "`
with `"u"`. -/
def unsignedStage (s : List Char) : List Char :=
  pyReplace s ['u', 'n', 's', 'i', 'g', 'n', 'e', 'd', ' '] ['u']

/-! ## Symbol Importer (`GDBDecompilerClient.update_symbols`)

`function_headers` and `global_vars` are dicts keyed by address string,
iterated in insertion order; they are modelled as association lists.
`SymbolMapper.add_native_symbols` is external (not under `src/`) and is
modelled as an oracle telling whether the batch submission raises.  The
`symbol_mapper.text_base_addr` assignment (a field write on that external
object) has no bearing on the claims and is not tracked. -/

/-- A decompiler-reported function header (`{"name": ..., "size": ...}`,
keyed by an address string). -/
structure FuncHeader where
  name : List Char
  size : Int
deriving DecidableEq

/-- A decompiler-reported global variable (`{"name": ...}`, keyed by an
address string; no size is reported). -/
structure GlobalVar where
  name : List Char
deriving DecidableEq

/-- The `"function"` / `"object"` kind tag of a native symbol entry. -/
inductive SymKind
  | function
  | object
deriving DecidableEq

/-- One `(name, addr, kind, size)` tuple appended to `syms_to_add`. -/
structure SymEntry where
  name : List Char
  addr : Int
  kind : SymKind
  size : Int
deriving DecidableEq

/-- The function loop of `update_symbols`: each header becomes a
`(name, int(addr, 0), "function", size)` entry; `none` models the
`ValueError` from `int(addr, 0)` on a malformed address string. -/
def funcEntries : List (List Char × FuncHeader) → Option (List SymEntry)
  | [] => some []
  | p :: rest =>
    match pyIntBase0 p.1, funcEntries rest with
    | some a, some es => some (SymEntry.mk p.2.name a .function p.2.size :: es)
    | _, _ => none

/-- The `sym_name_set` after the function loop: the names of all function
headers (only function names are ever inserted into the set). -/
def symNameSet (func_headers : List (List Char × FuncHeader)) :
    List (List Char) :=
  func_headers.map (fun p => p.2.name)

/-- The global-variable loop of `update_symbols`: a global whose name is
already in `sym_name_set` is skipped (before its address is parsed);
every other global becomes a `(name, int(addr, 0), "object", 8)` entry
(`global_var_size = 8`). -/
def globalEntries (names : List (List Char)) :
    List (List Char × GlobalVar) → Option (List SymEntry)
  | [] => some []
  | p :: rest =>
    if names.contains p.2.name then globalEntries names rest
    else
      match pyIntBase0 p.1, globalEntries names rest with
      | some a, some es => some (SymEntry.mk p.2.name a .object 8 :: es)
      | _, _ => none

/-- The full `syms_to_add` list built by `update_symbols`: function
entries (in header order) followed by the surviving global entries. -/
def symsToAdd (func_headers : List (List Char × FuncHeader))
    (global_vars : List (List Char × GlobalVar)) : Option (List SymEntry) :=
  match funcEntries func_headers with
  | none => none
  | some fs =>
    match globalEntries (symNameSet func_headers) global_vars with
    | none => none
    | some gs => some (fs ++ gs)

/-- The `err(...)` messages reported by `update_symbols` (the source
interpolates the exception text into the second one; only the identity of
the message matters here). -/
inductive ErrReport
  | capabilityMissing
  | symbolMapperFailed
deriving DecidableEq

/-- Observable outcome of one `update_symbols` run. -/
structure UpdateSymbolsRun where
  retval : Bool
  /-- the batch passed to `add_native_symbols`; `none` when it was never
  invoked -/
  submitted : Option (List SymEntry)
  /-- the `native_sym_support` flag after the run -/
  native_sym_support : Bool
  errors : List ErrReport
deriving DecidableEq

/-- Model of `GDBDecompilerClient.update_symbols`: fail fast when native symbol
support is absent; otherwise build `syms_to_add` (a `ValueError` from
`int(addr, 0)` propagates, modelled as `.error ()`), submit it in one
batch, and on an exception from the mapper report it, clear
`native_sym_support`, and return `False`. -/
def update_symbols (native_sym_support : Bool)
    (func_headers : List (List Char × FuncHeader))
    (global_vars : List (List Char × GlobalVar))
    (add_native_symbols_ok : List SymEntry → Bool) :
    Except Unit UpdateSymbolsRun :=
  if native_sym_support = false then
    .ok ⟨false, none, native_sym_support, [.capabilityMissing]⟩
  else
    match symsToAdd func_headers global_vars with
    | none => .error ()
    | some entries =>
      if add_native_symbols_ok entries then
        .ok ⟨true, some entries, native_sym_support, []⟩
      else
        .ok ⟨false, some entries, false, [.symbolMapperFailed]⟩

/-! ## Variable Materializer (`GDBDecompilerClient.update_function_data`)

`gdb.parse_and_eval` and `gdb.execute` are external; they are modelled by
a `GdbOracle`: `parse_and_eval` returns the printed value on success and
`none` when it raises, `execute` returns `false` when it raises.  The
`func_data` fetched from the decompiler is passed in as the two variable
maps (association lists in dict order). -/

/-- A register variable: `name → {"type": ..., "reg_name": ...}`. -/
structure RegVar where
  type : List Char
  reg_name : List Char
deriving DecidableEq

/-- A stack variable: `offset → {"type": ..., "name": ...}`. -/
structure StackVar where
  type : List Char
  name : List Char
deriving DecidableEq

/-- How one variable ended the pass: bound with its type, bound untyped
by the fallback, or skipped after both attempts failed. -/
inductive VarBinding
  | typed
  | untyped
  | skipped
deriving DecidableEq

/-- The debugger evaluation collaborators used by
`update_function_data`. -/
structure GdbOracle where
  parse_and_eval : List Char → Option (List Char)
  execute : List Char → Bool

/-- Python `f"set ${name} = {rhs}"`. -/
def setCmd (name rhs : List Char) : List Char :=
  "set $".data ++ name ++ " = ".data ++ rhs

/-- The typed-reinterpretation expression built for a register variable:
`f"""(({type_str}) (${reg_name})"""` (note the unmatched opening
parenthesis in the source's f-string). -/
def reg_var_expr (type_str reg_name : List Char) : List Char :=
  "((".data ++ type_str ++ ") ($".data ++ reg_name ++ ")".data

/-- One iteration of the register-variable loop: try the typed
expression (evaluation plus the `set` command, both inside one `try`),
fall back to the raw register reference, otherwise skip. -/
def bind_reg_var (g : GdbOracle) (name : List Char) (var : RegVar) :
    VarBinding :=
  let type_str := clean_type_str var.type
  let expr := reg_var_expr type_str var.reg_name
  let typed_ok :=
    match g.parse_and_eval expr with
    | some val => g.execute (setCmd name val)
    | none => false
  if typed_ok then .typed
  else if g.execute (setCmd name ("($".data ++ var.reg_name ++ ")".data)) then
    .untyped
  else .skipped

/-- One iteration of the stack-variable loop, after the offset string has
been parsed: try the typed pointer expression at `$fp - offset`, fall
back to the raw address expression, otherwise skip. -/
def bind_stack_var (g : GdbOracle) (offset : Int) (sv : StackVar) :
    VarBinding :=
  let type_str := clean_type_str sv.type
  let expr := "(".data ++ type_str ++ "*) ($fp - ".data ++
    (toString offset).data ++ ")".data
  if g.execute (setCmd sv.name expr) then .typed
  else if g.execute
      (setCmd sv.name ("($fp - ".data ++ (toString offset).data ++ ")".data)) then
    .untyped
  else .skipped

/-- The stack-variable loop: `offset = int(offset, 0)` happens outside
any `try`, so a malformed offset string raises `ValueError` out of the
whole pass (modelled as `.error ()`). -/
def stackVarLoop (g : GdbOracle) :
    List (List Char × StackVar) → Except Unit (List VarBinding)
  | [] => .ok []
  | (offsetStr, sv) :: rest =>
    match pyIntBase0 offsetStr with
    | none => .error ()
    | some offset =>
      match stackVarLoop g rest with
      | .error e => .error e
      | .ok bs => .ok (bind_stack_var g offset sv :: bs)

/-- Model of `GDBDecompilerClient.update_function_data` for a fetched `func_data`:
run the register-variable loop (which never raises) and then the
stack-variable loop; the returned list holds one outcome per variable in
iteration order. -/
def update_function_data (g : GdbOracle)
    (reg_vars : List (List Char × RegVar))
    (stack_vars : List (List Char × StackVar)) :
    Except Unit (List VarBinding) :=
  let regResults := reg_vars.map (fun p => bind_reg_var g p.1 p.2)
  match stackVarLoop g stack_vars with
  | .error e => .error e
  | .ok stackResults => .ok (regResults ++ stackResults)

/-- Count of a character in a string (for the parenthesis claim). -/
def charCount (s : List Char) (c : Char) : Nat :=
  s.count c

/-! ## Command Interface (`DecompilerCommand`)

`DecompilerCommand._init_arg_parser` builds an
`argparse.ArgumentParser(exit_on_error=False)` with two required
positionals (`command`, restricted to `connect`/`disconnect`/`info`, and
`decompiler_name` — a positional with a `default` is still required) and
the optionals `--host` (str), `--port` (int, base 10) and `--base-addr`
(`int(x, 0)`).

CPython argparse semantics modelled here: failures that raise
`argparse.ArgumentError` (invalid choice, bad value conversion, an
optional missing its value) are re-raised when `exit_on_error=False` and
are therefore caught by the `except Exception` in
`DecompilerCommand.invoke`; but a missing required argument and
unrecognized surplus arguments go through `parser.error()`, which raises
`SystemExit` regardless of `exit_on_error` — `SystemExit` derives from
`BaseException`, not `Exception`, so it escapes `invoke`'s handler.
Not modelled (never exercised by the source's own vocabulary): the `--`
separator, `--opt=value` attachment, and option-prefix abbreviation. -/

/-- The namespace produced by a successful parse. -/
structure CmdArgs where
  command : List Char
  decompiler_name : List Char
  host : List Char
  port : Int
  base_addr : Option Int
deriving DecidableEq

/-- A Python attribute value on the parsed namespace. -/
inductive AttrVal
  | str (s : List Char)
  | int (i : Int)
  | optInt (i : Option Int)
deriving DecidableEq

/-- Python `getattr` on the parsed namespace: exactly the five attributes
defined by `_init_arg_parser` exist; anything else raises
`AttributeError` (`none`). -/
def nsGetattr (a : CmdArgs) (attrName : List Char) : Option AttrVal :=
  if attrName = "command".data then some (.str a.command)
  else if attrName = "decompiler_name".data then some (.str a.decompiler_name)
  else if attrName = "host".data then some (.str a.host)
  else if attrName = "port".data then some (.int a.port)
  else if attrName = "base_addr".data then some (.optInt a.base_addr)
  else none

/-- Exceptions that can escape `DecompilerCommand.invoke`. -/
inductive PyExc
  | attributeError
  | systemExit
deriving DecidableEq

/-- How a parse attempt fails: `argumentError` is catchable
(`argparse.ArgumentError` with `exit_on_error=False`), `systemExit` is
raised by `parser.error()` and is not an `Exception`. -/
inductive ParseFail
  | argumentError
  | systemExit
deriving DecidableEq

/-- Accumulator while scanning the raw tokens. -/
structure ParseScan where
  positionals : List (List Char)
  host : List Char
  port : Int
  base_addr : Option Int
  /-- unrecognized optionals / surplus positionals were seen -/
  extras : Bool
deriving DecidableEq

/-- argparse treats a token as an optional iff it starts with `-` and is
neither `-` alone nor shaped like a negative number (this parser has no
numeric-looking option strings). -/
def isOptionToken (t : List Char) : Bool :=
  match t with
  | '-' :: c :: cs => ¬ (c :: cs).all (fun x => x.isDigit)
  | _ => false

/-- The `choices` list of the `command` positional. -/
def cmdChoices : List (List Char) :=
  ["connect".data, "disconnect".data, "info".data]

/-- Left-to-right scan of the raw tokens, mirroring
`parse_known_args`: options consume their following value token (raising
a catchable error when it is missing, option-shaped, or fails its type
conversion), the first positional must be one of the `choices`
(otherwise a catchable invalid-choice error), and unrecognized tokens
are collected as extras. -/
def scanTokens : List (List Char) → ParseScan → Except ParseFail ParseScan
  | [], st => .ok st
  | t :: rest, st =>
    if isOptionToken t then
      if t = "--host".data ∨ t = "--port".data ∨ t = "--base-addr".data then
        match rest with
        | [] => .error .argumentError
        | v :: rest2 =>
          if isOptionToken v then .error .argumentError
          else if t = "--host".data then
            scanTokens rest2 { st with host := v }
          else if t = "--port".data then
            match pyIntBase10 v with
            | some n => scanTokens rest2 { st with port := n }
            | none => .error .argumentError
          else
            match pyIntBase0 v with
            | some n => scanTokens rest2 { st with base_addr := some n }
            | none => .error .argumentError
      else scanTokens rest { st with extras := true }
    else
      match st.positionals with
      | [] =>
        if cmdChoices.contains t then
          scanTokens rest { st with positionals := [t] }
        else .error .argumentError
      | [c] => scanTokens rest { st with positionals := [c, t] }
      | _ => scanTokens rest { st with extras := true }

/-- Model of `self.arg_parser.parse_args(raw_args)`: scan the tokens, then —
like CPython — raise `SystemExit` via `parser.error()` when a required
positional is missing or unrecognized extras remain. -/
def parse_args (tokens : List (List Char)) : Except ParseFail CmdArgs :=
  match scanTokens tokens ⟨[], "localhost".data, 3662, none, false⟩ with
  | .error e => .error e
  | .ok st =>
    match st.positionals with
    | [cmd, dname] =>
      if st.extras then .error .systemExit
      else .ok ⟨cmd, dname, st.host, st.port, st.base_addr⟩
    | _ => .error .systemExit

/-- Messages shown by `err(...)` / `info(...)` in the command handlers
(only their identity matters). -/
inductive UserMsg
  | errNoName
  | errConnectFailed
  | infoConnected
  | infoDisconnected
  | errParseFailed
  | infoShown
deriving DecidableEq

/-- The session-relevant fields of `GDBClient`, both `None` at start. -/
structure GDBClientState where
  name : Option (List Char)
  text_segment_base_addr : Option Int
deriving DecidableEq

/-- Model of `DecompilerCommand._handle_connect`: bail out on an empty name;
otherwise overwrite `gdb_client.text_segment_base_addr` and
`gdb_client.name` with the attempt's arguments *before* the transport
connect, then report success or failure.  The transport-level
`decompiler.connect` is the `connect_ok` oracle (its success-path side
effects — base resolution, symbol import, pane registration — happen in
external code and are summarised by the `infoConnected` message). -/
def handle_connect (connect_ok : Bool) (args : CmdArgs)
    (st : GDBClientState) : GDBClientState × List UserMsg :=
  if args.decompiler_name = [] then (st, [.errNoName])
  else
    let st2 : GDBClientState :=
      { text_segment_base_addr := args.base_addr,
        name := some args.decompiler_name }
    if connect_ok then (st2, [.infoConnected])
    else (st2, [.errConnectFailed])

/-- Model of `DecompilerCommand._handle_disconnect`: reads `args.name`, an
attribute the arg parser never defines (the positional is
`decompiler_name`), so the `getattr` raises `AttributeError` before
anything else runs; the rest of the handler (the transport disconnect
and the informational report) is modelled for the shape of the source
but is unreachable. -/
def handle_disconnect (args : CmdArgs) (st : GDBClientState) :
    Except PyExc (GDBClientState × List UserMsg) :=
  match nsGetattr args "name".data with
  | none => .error .attributeError
  | some (.str s) =>
    if s = [] then .ok (st, [.errNoName])
    else .ok (st, [.infoDisconnected])
  | some _ => .ok (st, [.infoDisconnected])

/-- Model of `DecompilerCommand.invoke` on the already-split raw tokens: parse
failures raising a catchable exception are reported together with the
parser help text (`errParseFailed` plus `usage_shown`); `SystemExit`
escapes the `except Exception` handler; on a successful parse,
`_handle_cmd` dispatches on `"_handle_" + command` via `getattr`. -/
def invoke (connect_ok : Bool) (st : GDBClientState)
    (tokens : List (List Char)) :
    Except PyExc (GDBClientState × List UserMsg × Bool) :=
  match parse_args tokens with
  | .error .argumentError => .ok (st, [.errParseFailed], true)
  | .error .systemExit => .error .systemExit
  | .ok args =>
    if args.command = "connect".data then
      let r := handle_connect connect_ok args st
      .ok (r.1, r.2, false)
    else if args.command = "disconnect".data then
      match handle_disconnect args st with
      | .error e => .error e
      | .ok r => .ok (r.1, r.2, false)
    else if args.command = "info".data then
      .ok (st, [.infoShown], false)
    else
      .error .attributeError

end D2D

/-! ## Claim theorems -/

open D2D

/-- C1: once the addressing mode and static base are resolved, rebasing an
address to runtime and then back to static is the identity, and when the
target is non-PIE `rebase_addr` is the identity in either direction. -/
theorem rebase_addr_round_trip_and_non_pie_identity :
    (∀ (base a : Int),
      rebase_addr true base (rebase_addr true base a true) false = a) ∧
    (∀ (base a : Int) (up : Bool),
      rebase_addr false base a up = a) := by
  constructor
  · intro base a
    simp [rebase_addr]
  · intro base a up
    simp [rebase_addr]

/-- C2: the type normalizer is exactly the underscore-stripping/`_t`
suffix stage followed by the `"unsigned " → "u"` rewrite (in that order),
and on the spec's examples `"__int64" ↦ "int64_t"`,
`"unsigned int" ↦ "uint"`, `"__uint32[4]" ↦ "uint32_t[4]"`. -/
theorem clean_type_str_stages_and_examples :
    (∀ s : List Char, clean_type_str s = unsignedStage (underscoreStage s)) ∧
    cleanTypeStr "__int64" = "int64_t" ∧
    cleanTypeStr "unsigned int" = "uint" ∧
    cleanTypeStr "__uint32[4]" = "uint32_t[4]" := by
  refine ⟨fun s => rfl, ?_, ?_, ?_⟩ <;> decide

/-! Helper lemmas about the entry lists built by `update_symbols`. -/

theorem funcEntries_filter_nil {n : List Char}
    {fhs : List (List Char × FuncHeader)} {fs : List SymEntry}
    (hfs : funcEntries fhs = some fs)
    (hnone : fhs.filter (fun p => p.2.name == n) = []) :
    fs.filter (fun e => e.name == n) = [] := by
  induction fhs generalizing fs with
  | nil =>
    simp only [funcEntries, Option.some.injEq] at hfs
    simp [← hfs]
  | cons p rest ih =>
    simp only [funcEntries] at hfs
    rcases ha : pyIntBase0 p.1 with _ | a <;> rw [ha] at hfs
    · exact absurd hfs (by simp)
    rcases hrest : funcEntries rest with _ | es <;> rw [hrest] at hfs
    · exact absurd hfs (by simp)
    simp only [Option.some.injEq] at hfs
    rcases hn : (p.2.name == n) with _ | _
    · rw [List.filter_cons_of_neg (by simp [hn])] at hnone
      rw [← hfs, List.filter_cons_of_neg (by simp [hn])]
      exact ih hrest hnone
    · rw [List.filter_cons_of_pos (by simp [hn])] at hnone
      exact absurd hnone (by simp)

theorem funcEntries_filter_singleton {n addrS : List Char} {fh : FuncHeader}
    {fhs : List (List Char × FuncHeader)} {fs : List SymEntry}
    (hfs : funcEntries fhs = some fs)
    (huniq : fhs.filter (fun p => p.2.name == n) = [(addrS, fh)]) :
    ∃ a, pyIntBase0 addrS = some a ∧
      fs.filter (fun e => e.name == n) = [SymEntry.mk n a .function fh.size] := by
  induction fhs generalizing fs with
  | nil => exact absurd huniq (by simp)
  | cons p rest ih =>
    simp only [funcEntries] at hfs
    rcases ha : pyIntBase0 p.1 with _ | a <;> rw [ha] at hfs
    · exact absurd hfs (by simp)
    rcases hrest : funcEntries rest with _ | es <;> rw [hrest] at hfs
    · exact absurd hfs (by simp)
    simp only [Option.some.injEq] at hfs
    rcases hn : (p.2.name == n) with _ | _
    · rw [List.filter_cons_of_neg (by simp [hn])] at huniq
      rw [← hfs, List.filter_cons_of_neg (by simp [hn])]
      exact ih hrest huniq
    · rw [List.filter_cons_of_pos (by simp [hn])] at huniq
      rw [List.cons_eq_cons] at huniq
      obtain ⟨hp, hrestnil⟩ := huniq
      subst hp
      have hname : fh.name = n := by simpa using hn
      refine ⟨a, by simpa using ha, ?_⟩
      rw [← hfs, List.filter_cons_of_pos (by simpa using hn)]
      rw [funcEntries_filter_nil hrest hrestnil]
      simp [hname]

theorem globalEntries_filter_nil {n : List Char} {names : List (List Char)}
    {gvs : List (List Char × GlobalVar)} {gs : List SymEntry}
    (hgs : globalEntries names gvs = some gs) (hmem : names.contains n) :
    gs.filter (fun e => e.name == n) = [] := by
  induction gvs generalizing gs with
  | nil =>
    simp only [globalEntries, Option.some.injEq] at hgs
    simp [← hgs]
  | cons p rest ih =>
    simp only [globalEntries] at hgs
    rcases hc : names.contains p.2.name with _ | _ <;> rw [hc] at hgs
    · simp only [Bool.false_eq_true, if_false] at hgs
      rcases ha : pyIntBase0 p.1 with _ | a <;> rw [ha] at hgs
      · exact absurd hgs (by simp)
      rcases hrest : globalEntries names rest with _ | es <;> rw [hrest] at hgs
      · exact absurd hgs (by simp)
      simp only [Option.some.injEq] at hgs
      have hne : (p.2.name == n) = false := by
        rcases heq : (p.2.name == n) with _ | _
        · rfl
        · have : p.2.name = n := by simpa using heq
          rw [this] at hc
          rw [hmem] at hc
          exact absurd hc (by simp)
      rw [← hgs, List.filter_cons_of_neg (by simp [hne])]
      exact ih hrest
    · simp only [if_true] at hgs
      exact ih hgs

theorem update_symbols_submitted
    {fhs : List (List Char × FuncHeader)}
    {gvs : List (List Char × GlobalVar)}
    {oracle : List SymEntry → Bool} {run : UpdateSymbolsRun}
    (hrun : update_symbols true fhs gvs oracle = .ok run) :
    run.submitted = symsToAdd fhs gvs := by
  simp only [update_symbols] at hrun
  rcases hall : symsToAdd fhs gvs with _ | entries <;>
    simp only [hall] at hrun
  · exact Except.noConfusion hrun
  · rcases horc : oracle entries with _ | _ <;> simp [horc] at hrun <;>
      simp [← hrun]

/-- C3 counterexample: with two function headers both named `"foo"` (at
`0x1000` and `0x3000`) and a global also named `"foo"`, the submitted
entry list contains two entries named `"foo"`, not exactly one. -/
theorem update_symbols_dedup_cex :
    (update_symbols true
        [("0x1000".data, FuncHeader.mk "foo".data 16),
         ("0x3000".data, FuncHeader.mk "foo".data 16)]
        [("0x2000".data, GlobalVar.mk "foo".data)]
        (fun _ => true)).map (fun run =>
          run.submitted.map (fun es =>
            (es.filter (fun e => e.name == "foo".data)).length)) =
      .ok (some 2) := by
  rfl

/-- C3 (amended): whenever exactly one function header bears the shared
name `n` (and that name also occurs among the globals), the entry list
submitted by `update_symbols` contains exactly one entry named `n`: a
function-kind entry carrying that header's parsed address and size — the
same-named object-kind entry is dropped. -/
theorem update_symbols_dedup_function_priority
    (fhs : List (List Char × FuncHeader))
    (gvs : List (List Char × GlobalVar))
    (oracle : List SymEntry → Bool) (run : UpdateSymbolsRun)
    (es : List SymEntry) (n addrS : List Char) (fh : FuncHeader)
    (hrun : update_symbols true fhs gvs oracle = .ok run)
    (hsub : run.submitted = some es)
    (huniq : fhs.filter (fun p => p.2.name == n) = [(addrS, fh)])
    (hglob : ∃ p ∈ gvs, p.2.name = n) :
    ∃ a, pyIntBase0 addrS = some a ∧
      es.filter (fun e => e.name == n) = [SymEntry.mk n a .function fh.size] := by
  clear hglob
  have hall : symsToAdd fhs gvs = some es := by
    rw [← update_symbols_submitted hrun]
    exact hsub
  simp only [symsToAdd] at hall
  rcases hfs : funcEntries fhs with _ | fs <;> simp [hfs] at hall
  rcases hgs : globalEntries (symNameSet fhs) gvs with _ | gs <;>
    simp [hgs] at hall
  obtain ⟨a, ha, hfsf⟩ := funcEntries_filter_singleton hfs huniq
  have hmem : (symNameSet fhs).contains n := by
    have : (addrS, fh) ∈ fhs.filter (fun p => p.2.name == n) := by
      rw [huniq]; exact List.mem_singleton.mpr rfl
    rw [List.mem_filter] at this
    have hname : fh.name = n := by simpa using this.2
    simp only [symNameSet, List.contains_eq_any_beq, List.any_eq_true]
    exact ⟨n, List.mem_map.mpr ⟨(addrS, fh), this.1, hname⟩, by simp⟩
  have hgsf := globalEntries_filter_nil hgs hmem
  rw [← hall, List.filter_append, hfsf, hgsf]
  exact ⟨a, ha, by simp⟩

/-- C3 witness: a function `"foo"` at `0x1000` (size 16) plus a global
`"foo"` at `0x2000` yield exactly one `"foo"` entry, of function kind, at
address `0x1000`. -/
theorem update_symbols_dedup_function_priority_witness :
    ∃ a, pyIntBase0 "0x1000".data = some a ∧
      List.filter (fun e => e.name == "foo".data)
          [SymEntry.mk "foo".data 4096 .function 16] =
        [SymEntry.mk "foo".data a .function 16] :=
  update_symbols_dedup_function_priority
    [("0x1000".data, FuncHeader.mk "foo".data 16)]
    [("0x2000".data, GlobalVar.mk "foo".data)]
    (fun _ => true)
    ⟨true, some [SymEntry.mk "foo".data 4096 .function 16], true, []⟩
    [SymEntry.mk "foo".data 4096 .function 16]
    "foo".data "0x1000".data (FuncHeader.mk "foo".data 16)
    rfl rfl (by decide)
    ⟨("0x2000".data, GlobalVar.mk "foo".data), by simp, rfl⟩

/-- C5: when native symbol support is unavailable, `update_symbols`
reports a capability error, returns `False`, and never invokes the native
registration mechanism (zero entries submitted), whatever the symbol
tables contain. -/
theorem update_symbols_no_native_support :
    ∀ (fhs : List (List Char × FuncHeader))
      (gvs : List (List Char × GlobalVar))
      (oracle : List SymEntry → Bool),
      update_symbols false fhs gvs oracle =
        .ok ⟨false, none, false, [.capabilityMissing]⟩ :=
  fun _ _ _ => rfl

/-- C6: when the native registration mechanism raises on the submitted
batch, `update_symbols` captures the exception (it returns instead of
propagating), reports it, clears `native_sym_support`, and returns
`False`; any later run with the cleared flag fails fast and submits
nothing. -/
theorem update_symbols_mapper_exception
    (fhs : List (List Char × FuncHeader))
    (gvs : List (List Char × GlobalVar))
    (oracle : List SymEntry → Bool) (es : List SymEntry)
    (hes : symsToAdd fhs gvs = some es)
    (hraise : oracle es = false) :
    update_symbols true fhs gvs oracle =
      .ok ⟨false, some es, false, [.symbolMapperFailed]⟩ ∧
    (∀ (fhs2 : List (List Char × FuncHeader))
       (gvs2 : List (List Char × GlobalVar))
       (oracle2 : List SymEntry → Bool),
       update_symbols false fhs2 gvs2 oracle2 =
         .ok ⟨false, none, false, [.capabilityMissing]⟩) := by
  constructor
  · simp [update_symbols, hes, hraise]
  · intro _ _ _
    rfl

theorem stackVarLoop_ok_of_offsets_parse {g : GdbOracle}
    {stack_vars : List (List Char × StackVar)}
    (hoff : ∀ p ∈ stack_vars, (pyIntBase0 p.1).isSome) :
    ∃ bs, stackVarLoop g stack_vars = .ok bs ∧
      bs.length = stack_vars.length := by
  induction stack_vars with
  | nil => exact ⟨[], rfl, rfl⟩
  | cons p rest ih =>
    obtain ⟨bs, hbs, hlen⟩ := ih (fun q hq => hoff q (List.mem_cons_of_mem p hq))
    have hp := hoff p (List.mem_cons_self p rest)
    rcases ho : pyIntBase0 p.1 with _ | offset
    · rw [ho] at hp
      exact absurd hp (by simp)
    refine ⟨bind_stack_var g offset p.2 :: bs, ?_, by simp [hlen]⟩
    rcases p with ⟨offsetStr, sv⟩
    simp only [stackVarLoop]
    rw [ho, hbs]

/-- C4 counterexample: a stack variable whose offset string `"xyz"` is
not an integer literal makes `update_function_data` raise to its caller
(the `int(offset, 0)` call is outside every `try` block), even though
every evaluation of the oracle would succeed. -/
theorem update_function_data_raises_cex :
    update_function_data ⟨fun v => some v, fun _ => true⟩ []
      [("xyz".data, StackVar.mk "int".data "v".data)] = .error () := rfl

/-- C4 (amended): whatever the oracle does and whatever the type strings
are, `update_function_data` completes without raising provided every
stack-variable offset string parses as an integer literal, and it
produces exactly one outcome — typed, untyped, or skipped — per
variable. -/
theorem update_function_data_total (g : GdbOracle)
    (reg_vars : List (List Char × RegVar))
    (stack_vars : List (List Char × StackVar))
    (hoff : ∀ p ∈ stack_vars, (pyIntBase0 p.1).isSome) :
    ∃ outs, update_function_data g reg_vars stack_vars = .ok outs ∧
      outs.length = reg_vars.length + stack_vars.length := by
  obtain ⟨bs, hbs, hlen⟩ := stackVarLoop_ok_of_offsets_parse (g := g) hoff
  refine ⟨reg_vars.map (fun p => bind_reg_var g p.1 p.2) ++ bs, ?_, by simp [hlen]⟩
  simp only [update_function_data]
  rw [hbs]

/-- C4 witness: one register variable and one stack variable at offset
`"0x8"`, with an oracle on which every evaluation raises. -/
theorem update_function_data_total_witness :
    ∃ outs, update_function_data ⟨fun _ => none, fun _ => false⟩
        [("a".data, RegVar.mk "__int64".data "rax".data)]
        [("0x8".data, StackVar.mk "unsigned int".data "b".data)] = .ok outs ∧
      outs.length = 1 + 1 :=
  update_function_data_total ⟨fun _ => none, fun _ => false⟩
    [("a".data, RegVar.mk "__int64".data "rax".data)]
    [("0x8".data, StackVar.mk "unsigned int".data "b".data)]
    (by decide)

/-- C10 counterexample: for the register variable type `")"` (which the
normalizer leaves unchanged) and register `"rax"`, the constructed
expression `"(()) ($rax)"` has three opening and three closing
parentheses — not one more opening than closing — and is in fact
balanced. -/
theorem reg_var_expr_balanced_cex :
    charCount (reg_var_expr (clean_type_str ")".data) "rax".data) '(' = 3 ∧
    charCount (reg_var_expr (clean_type_str ")".data) "rax".data) ')' = 3 := by
  constructor <;> rfl

/-- C10 (amended): the constructed register expression has exactly one
more opening than closing parenthesis whenever the normalized type and
the register name together contribute as many opening as closing
parentheses (in particular whenever they contain none). -/
theorem reg_var_expr_paren_surplus (t rn : List Char)
    (h : charCount (clean_type_str t) '(' + charCount rn '(' =
      charCount (clean_type_str t) ')' + charCount rn ')') :
    charCount (reg_var_expr (clean_type_str t) rn) '(' =
      charCount (reg_var_expr (clean_type_str t) rn) ')' + 1 := by
  have h1 : ("((".data).count '(' = 2 := rfl
  have h2 : ("((".data).count ')' = 0 := rfl
  have h3 : (") ($".data).count '(' = 1 := rfl
  have h4 : (") ($".data).count ')' = 1 := rfl
  have h5 : (")".data).count '(' = 0 := rfl
  have h6 : (")".data).count ')' = 1 := rfl
  simp only [charCount, reg_var_expr, List.count_append, h1, h2, h3, h4, h5,
    h6] at h ⊢
  omega

/-- C10 witness: type `"__int64"` and register `"rax"` contribute no
parentheses, so the expression has exactly one extra `'('`. -/
theorem reg_var_expr_paren_surplus_witness :
    charCount (reg_var_expr (clean_type_str "__int64".data) "rax".data) '(' =
      charCount (reg_var_expr (clean_type_str "__int64".data) "rax".data) ')' +
        1 :=
  reg_var_expr_paren_surplus "__int64".data "rax".data (by decide)

/-- C6 witness: a single function `"f"` at `0x10` with a mapper that
always raises. -/
theorem update_symbols_mapper_exception_witness :
    update_symbols true [("0x10".data, FuncHeader.mk "f".data 4)] []
        (fun _ => false) =
      .ok ⟨false, some [SymEntry.mk "f".data 16 .function 4], false,
        [.symbolMapperFailed]⟩ ∧
    (∀ (fhs2 : List (List Char × FuncHeader))
       (gvs2 : List (List Char × GlobalVar))
       (oracle2 : List SymEntry → Bool),
       update_symbols false fhs2 gvs2 oracle2 =
         .ok ⟨false, none, false, [.capabilityMissing]⟩) :=
  update_symbols_mapper_exception
    [("0x10".data, FuncHeader.mk "f".data 4)] [] (fun _ => false)
    [SymEntry.mk "f".data 16 .function 4] (by decide) rfl

/-- C7: every invocation of the disconnect handler raises
`AttributeError` before doing anything — the handler reads `args.name`
but the parsed namespace only defines `decompiler_name` — so disconnect
is never the error-free informational no-op the spec describes, on the
first call or the second. -/
theorem disconnect_always_raises_attribute_error :
    ∀ (args : CmdArgs) (st : GDBClientState) (connect_ok : Bool),
      handle_disconnect args st = .error .attributeError ∧
      invoke connect_ok st ["disconnect".data, "ida1".data] =
        .error .attributeError :=
  fun _ _ _ => ⟨rfl, rfl⟩

/-- C8 counterexample: starting from the fresh state (no name, no base
address), a connect attempt for `"ida1"` with `--base-addr 0x1000` whose
transport connect fails leaves the stored decompiler name and
text-segment base changed — not the pre-attempt state. -/
theorem connect_failure_mutates_state_cex :
    (handle_connect false
        ⟨"connect".data, "ida1".data, "localhost".data, 3662, some 4096⟩
        ⟨none, none⟩).1 =
      GDBClientState.mk (some "ida1".data) (some 4096) ∧
    GDBClientState.mk (some "ida1".data) (some 4096) ≠
      GDBClientState.mk none none := by
  exact ⟨rfl, by decide⟩

/-- C8 (amended): when the transport connect fails (and a decompiler
name was given), the handler reports an error and no session is
established, but the stored decompiler name and text-segment base
address have already been overwritten with the attempt's arguments. -/
theorem handle_connect_transport_failure (args : CmdArgs)
    (st : GDBClientState) (hname : args.decompiler_name ≠ []) :
    handle_connect false args st =
      ({ name := some args.decompiler_name,
         text_segment_base_addr := args.base_addr },
       [.errConnectFailed]) := by
  simp [handle_connect, hname]

/-- C8 witness: the amended behaviour at the concrete failing connect
attempt. -/
theorem handle_connect_transport_failure_witness :
    handle_connect false
        ⟨"connect".data, "ida1".data, "localhost".data, 3662, some 4096⟩
        ⟨none, none⟩ =
      ({ name := some "ida1".data, text_segment_base_addr := some 4096 },
       [.errConnectFailed]) :=
  handle_connect_transport_failure
    ⟨"connect".data, "ida1".data, "localhost".data, 3662, some 4096⟩
    ⟨none, none⟩ (by decide)

/-- C9 counterexample: the raw argument string `"connect"` is missing
the required `decompiler_name`; CPython argparse raises `SystemExit`
for missing required arguments even with `exit_on_error=False`, and
`SystemExit` is not an `Exception`, so the parse failure escapes
`invoke` uncaught and no usage message is shown. -/
theorem invoke_missing_required_arg_cex :
    invoke true ⟨none, none⟩ ["connect".data] = .error .systemExit := rfl

/-- C9 (amended): a parse failure that raises a catchable
`argparse.ArgumentError` (unknown command, bad option value, option
missing its value) is caught by `invoke`, which shows the usage text and
mutates no state; a failure that raises `SystemExit` (missing required
argument, unrecognized surplus arguments) escapes the handler — also
without mutating state. -/
theorem invoke_parse_failure_behaviour (connect_ok : Bool)
    (st : GDBClientState) (tokens : List (List Char)) :
    (parse_args tokens = .error .argumentError →
      invoke connect_ok st tokens = .ok (st, [.errParseFailed], true)) ∧
    (parse_args tokens = .error .systemExit →
      invoke connect_ok st tokens = .error .systemExit) := by
  constructor <;> intro h <;> simp [invoke, h]

/-- C9 witness: the unknown command `"foo"` is caught with usage shown
and the state untouched, while the empty argument string escapes as
`SystemExit`. -/
theorem invoke_parse_failure_behaviour_witness :
    invoke true ⟨none, none⟩ ["foo".data, "x".data] =
      .ok (⟨none, none⟩, [.errParseFailed], true) ∧
    invoke true ⟨none, none⟩ [] = .error .systemExit :=
  ⟨(invoke_parse_failure_behaviour true ⟨none, none⟩
      ["foo".data, "x".data]).1 rfl,
   (invoke_parse_failure_behaviour true ⟨none, none⟩ []).2 rfl⟩
